import Mathlib

/-!
# The loader `index.js` of pcf-wasm

The program is one promise chain:

    const rust = import('./pkg');
    rust
      .then(m => {
        let res = m.get_pc(BigInt("0b1100001111111000111111110011111110001111"), "JISZ")
        console.log(res)
      })
      .catch(console.error);

The embedding below makes the environment explicit (how the dynamic import
settles, what the module exports, whether the two console functions throw) and
returns, for one run, the state of the last promise of the chain together with
the sequence of calls the loader made.
-/

set_option autoImplicit false

namespace PcfWasm

/-! ## Values -/

/-- JavaScript values, as far as the loader can tell them apart: the two
literal arguments are a BigInt and a string, the run time raises error objects,
and every other value is identified by a tag. -/
inductive Val
  | undefined
  | bigint (n : Int)
  | str (s : String)
  | errorObject (name : String) (message : String)
  | host (tag : Nat)
  deriving DecidableEq, Repr

/-- The result of evaluating a call: a normal completion `ok v` or a throw
completion `error e`. -/
abbrev Completion := Except Val Val

/-- What a name of the module namespace object holds: a callable, or a value
that is not callable (`undefined` when the module does not export the name). -/
inductive Member
  | data (v : Val)
  | func (f : List Val → Completion)

/-- The module namespace object the dynamic import yields. -/
structure Module where
  member : String → Member

/-- The state of a promise once the job queue is drained. -/
inductive Settled (α : Type)
  | pending
  | fulfilled (v : α)
  | rejected (e : Val)

/-- The environment of one run. `importOutcome s` is how `import(s)` settles;
`consoleLog v` and `consoleError v` are `some e` when the console function
throws `e` on `v` and `none` when it returns (its result is `undefined`). -/
structure World where
  importOutcome : String → Settled Module
  consoleLog : Val → Option Val
  consoleError : Val → Option Val

/-- The calls the loader makes, in the order it makes them. -/
inductive Event
  | acquire (specifier : String)
  | invoke (name : String) (args : List Val)
  | log (v : Val)
  | error (e : Val)
  deriving DecidableEq, Repr

def Event.isInvoke : Event → Bool
  | .invoke _ _ => true
  | _ => false

def Event.isLog : Event → Bool
  | .log _ => true
  | _ => false

def Event.isError : Event → Bool
  | .error _ => true
  | _ => false

/-! ## `BigInt(string)` -/

/-- The white space and line terminator code points that `StringToBigInt`
strips from both ends of its argument. -/
def isStrWhiteSpaceChar (c : Char) : Bool :=
  let n := c.toNat
  n = 0x09 || n = 0x0A || n = 0x0B || n = 0x0C || n = 0x0D || n = 0x20 || n = 0xA0
    || n = 0x1680 || (0x2000 ≤ n && n ≤ 0x200A) || n = 0x2028 || n = 0x2029
    || n = 0x202F || n = 0x205F || n = 0x3000 || n = 0xFEFF

/-- The value of a digit character in radix 16 or below. -/
def digitValue (c : Char) : Option Nat :=
  let n := c.toNat
  if 48 ≤ n ∧ n ≤ 57 then some (n - 48)
  else if 97 ≤ n ∧ n ≤ 102 then some (n - 87)
  else if 65 ≤ n ∧ n ≤ 70 then some (n - 55)
  else none

/-- The mathematical value of a run of digits, most significant first; `none`
when a character is not a digit of the radix. -/
def parseDigits (radix : Nat) : List Char → Nat → Option Nat
  | [], acc => some acc
  | c :: cs, acc =>
    match digitValue c with
    | some d => if d < radix then parseDigits radix cs (acc * radix + d) else none
    | none => none

/-- A run of digits that must not be empty. -/
def parseNonEmpty (radix : Nat) (ds : List Char) : Option Nat :=
  if ds.isEmpty then none else parseDigits radix ds 0

/-- The grammar `StringIntegerLiteral` on trimmed text: empty text is zero, a
`0b`, `0o` or `0x` mark takes digits of that radix, and decimal digits may
carry a sign. -/
def parseIntegerLiteral : List Char → Option Int
  | [] => some 0
  | '0' :: 'b' :: ds => (parseNonEmpty 2 ds).map Int.ofNat
  | '0' :: 'B' :: ds => (parseNonEmpty 2 ds).map Int.ofNat
  | '0' :: 'o' :: ds => (parseNonEmpty 8 ds).map Int.ofNat
  | '0' :: 'O' :: ds => (parseNonEmpty 8 ds).map Int.ofNat
  | '0' :: 'x' :: ds => (parseNonEmpty 16 ds).map Int.ofNat
  | '0' :: 'X' :: ds => (parseNonEmpty 16 ds).map Int.ofNat
  | '+' :: ds => (parseNonEmpty 10 ds).map Int.ofNat
  | '-' :: ds => (parseNonEmpty 10 ds).map (fun n => - Int.ofNat n)
  | ds => (parseNonEmpty 10 ds).map Int.ofNat

/-- The abstract operation `StringToBigInt`. -/
def StringToBigInt (s : String) : Option Int :=
  let front := s.toList.dropWhile isStrWhiteSpaceChar
  let text := (front.reverse.dropWhile isStrWhiteSpaceChar).reverse
  parseIntegerLiteral text

/-- The built-in `BigInt` applied to a string: the integer the text denotes, or
a thrown `SyntaxError`. -/
def BigInt (s : String) : Except Val Int :=
  match StringToBigInt s with
  | some n => .ok n
  | none => .error (.errorObject "SyntaxError" ("Cannot convert " ++ s ++ " to a BigInt"))

/-! ## Promises -/

/-- The state a reaction job gives the derived promise: a handler that returns
fulfils it, a handler that throws rejects it. -/
def settle : Completion → Settled Val
  | .ok r => .fulfilled r
  | .error e => .rejected e

/-- The promise `p.then(onFulfilled)` and the calls made while its reaction job
runs. Without a rejection handler a rejection passes through. -/
def promiseThen {α : Type} (p : Settled α) (onFulfilled : α → Completion × List Event) :
    Settled Val × List Event :=
  match p with
  | .pending => (.pending, [])
  | .rejected e => (.rejected e, [])
  | .fulfilled v => (settle (onFulfilled v).1, (onFulfilled v).2)

/-- The promise `p.catch(onRejected)` and the calls made while its reaction job
runs. A fulfilment passes through. -/
def promiseCatch (p : Settled Val) (onRejected : Val → Completion × List Event) :
    Settled Val × List Event :=
  match p with
  | .pending => (.pending, [])
  | .fulfilled v => (.fulfilled v, [])
  | .rejected e => (settle (onRejected e).1, (onRejected e).2)

/-! ## The loader -/

/-- The text of the string handed to `BigInt` on line 7. -/
def bitPatternText : String := "0b1100001111111000111111110011111110001111"

/-- The binary digits of the literal, without the `0b` mark. -/
def bitPatternDigits : String := bitPatternText.drop 2

/-- The tag handed to `get_pc` on line 7. -/
def tagText : String := "JISZ"

/-- Line 7, `m.get_pc(BigInt("0b..."), "JISZ")`: the member is read, the
arguments are evaluated, and the call throws a `TypeError` when the member is
not callable. -/
def get_pc_call (m : Module) : Completion × List Event :=
  let callee := m.member "get_pc"
  match BigInt bitPatternText with
  | .error e => (.error e, [])
  | .ok n =>
    let args := [Val.bigint n, Val.str tagText]
    match callee with
    | .func f => (f args, [.invoke "get_pc" args])
    | .data _ => (.error (.errorObject "TypeError" "m.get_pc is not a function"), [])

/-- Line 8, `console.log(res)`. -/
def console_log (w : World) (res : Val) : Completion × List Event :=
  match w.consoleLog res with
  | some e => (.error e, [.log res])
  | none => (.ok .undefined, [.log res])

/-- The rejection handler of line 10, `console.error`. -/
def console_error (w : World) (e : Val) : Completion × List Event :=
  match w.consoleError e with
  | some e' => (.error e', [.error e])
  | none => (.ok .undefined, [.error e])

/-- Lines 6 to 9, the callback `m => { let res = ...; console.log(res) }`. The
block has no `return`, so it completes with `undefined`. -/
def thenCallback (w : World) (m : Module) : Completion × List Event :=
  match get_pc_call m with
  | (.error e, t) => (.error e, t)
  | (.ok res, t) =>
    match console_log w res with
    | (.error e, t') => (.error e, t ++ t')
    | (.ok _, t') => (.ok .undefined, t ++ t')

/-- The whole file: the state of the promise `rust.then(...).catch(...)` and
the trace of the run. -/
def index (w : World) : Settled Val × List Event :=
  let rust := w.importOutcome "./pkg"
  let afterThen := promiseThen rust (thenCallback w)
  let afterCatch := promiseCatch afterThen.1 (console_error w)
  (afterCatch.1, Event.acquire "./pkg" :: (afterThen.2 ++ afterCatch.2))

/-- The trace of a run. -/
def trace (w : World) : List Event := (index w).2

/-- The state of the last promise of the chain. -/
def finalPromise (w : World) : Settled Val := (index w).1

/-! ## The literal, read the way the specification words it -/

/-- The positions, counted from the right and starting at zero, at which a
digit string has the digit one. -/
def setBits (digits : String) : List Nat :=
  (List.range digits.length).filter (fun i => digits.toList.reverse.getD i '0' = '1')

/-- The sum of `2^i` over the set bits of a digit string. -/
def sumOfSetBits (digits : String) : Nat :=
  ((setBits digits).map (fun i => 2 ^ i)).sum

/-! ## Sample environments -/

/-- A `get_pc` that returns the host value 7. -/
def returning7 : Module := ⟨fun name => if name = "get_pc" then .func (fun _ => .ok (.host 7)) else .data .undefined⟩

/-- A `get_pc` that throws the host value 9. -/
def throwing9 : Module := ⟨fun name => if name = "get_pc" then .func (fun _ => .error (.host 9)) else .data .undefined⟩

/-- A module that exports nothing. -/
def emptyModule : Module := ⟨fun _ => .data .undefined⟩

/-- Consoles that return, around a given import outcome. -/
def quietWorld (o : Settled Module) : World := ⟨fun _ => o, fun _ => none, fun _ => none⟩

/-- A world whose `console.log` throws the host value 5 on every argument. -/
def logThrowsWorld (o : Settled Module) : World := ⟨fun _ => o, fun _ => some (.host 5), fun _ => none⟩

/-- The two arguments line 7 evaluates. -/
def literalArgs : List Val :=
  [.bigint 0b1100001111111000111111110011111110001111, .str "JISZ"]

/-! ## The traces a run can have -/

/-- Every run has one of six traces. -/
inductive Shape (w : World) : Prop
  | pending (h : w.importOutcome "./pkg" = .pending)
      (ht : trace w = [.acquire "./pkg"])
  | loadFailed (e : Val) (h : w.importOutcome "./pkg" = .rejected e)
      (ht : trace w = [.acquire "./pkg", .error e])
  | notCallable (m : Module) (d : Val) (h : w.importOutcome "./pkg" = .fulfilled m)
      (hm : m.member "get_pc" = .data d)
      (ht : trace w = [.acquire "./pkg",
        .error (.errorObject "TypeError" "m.get_pc is not a function")])
  | callThrew (m : Module) (f : List Val → Completion) (e : Val)
      (h : w.importOutcome "./pkg" = .fulfilled m) (hm : m.member "get_pc" = .func f)
      (hf : f literalArgs = .error e)
      (ht : trace w = [.acquire "./pkg", .invoke "get_pc" literalArgs, .error e])
  | logged (m : Module) (f : List Val → Completion) (v : Val)
      (h : w.importOutcome "./pkg" = .fulfilled m) (hm : m.member "get_pc" = .func f)
      (hf : f literalArgs = .ok v) (hlog : w.consoleLog v = none)
      (ht : trace w = [.acquire "./pkg", .invoke "get_pc" literalArgs, .log v])
  | logThrew (m : Module) (f : List Val → Completion) (v e : Val)
      (h : w.importOutcome "./pkg" = .fulfilled m) (hm : m.member "get_pc" = .func f)
      (hf : f literalArgs = .ok v) (hlog : w.consoleLog v = some e)
      (ht : trace w = [.acquire "./pkg", .invoke "get_pc" literalArgs, .log v, .error e])

/-! ## Evaluating the literal -/

theorem bitPatternDigits_eq :
    bitPatternDigits = "1100001111111000111111110011111110001111" := by
  decide

theorem BigInt_bitPattern :
    BigInt bitPatternText = .ok 0b1100001111111000111111110011111110001111 := by
  rfl

theorem sumOfSetBits_bitPattern :
    sumOfSetBits bitPatternDigits = 0b1100001111111000111111110011111110001111 := by
  decide

/-! ## Line 7 -/

theorem get_pc_call_func (m : Module) (f : List Val → Completion)
    (h : m.member "get_pc" = .func f) :
    get_pc_call m = (f literalArgs, [.invoke "get_pc" literalArgs]) := by
  simp [get_pc_call, BigInt_bitPattern, h, literalArgs, tagText]

theorem get_pc_call_data (m : Module) (v : Val) (h : m.member "get_pc" = .data v) :
    get_pc_call m = (.error (.errorObject "TypeError" "m.get_pc is not a function"), []) := by
  simp [get_pc_call, BigInt_bitPattern, h]

/-- The call returns `v` exactly when the member is a function that returns `v`
on the two literal arguments. -/
theorem get_pc_call_ok_iff (m : Module) (v : Val) :
    (get_pc_call m).1 = .ok v ↔
      ∃ f, m.member "get_pc" = .func f ∧ f literalArgs = .ok v := by
  cases h : m.member "get_pc" with
  | data d => simp [get_pc_call_data m d h]
  | func f => simp [get_pc_call_func m f h]

/-- The events of line 7: one invocation when the member is callable, none
otherwise. -/
theorem get_pc_call_events (m : Module) :
    (get_pc_call m).2 = [.invoke "get_pc" literalArgs] ∨
      ((get_pc_call m).2 = [] ∧
        (get_pc_call m).1 = .error (.errorObject "TypeError" "m.get_pc is not a function")) := by
  cases h : m.member "get_pc" with
  | data d => simp [get_pc_call_data m d h]
  | func f => simp [get_pc_call_func m f h]

theorem get_pc_call_ok_events (m : Module) (v : Val) (h : (get_pc_call m).1 = .ok v) :
    get_pc_call m = (.ok v, [.invoke "get_pc" literalArgs]) := by
  obtain ⟨f, hf, hv⟩ := (get_pc_call_ok_iff m v).1 h
  rw [get_pc_call_func m f hf, hv]

/-! ## The shapes of a run -/

theorem console_error_events (w : World) (e : Val) : (console_error w e).2 = [.error e] := by
  unfold console_error
  cases w.consoleError e <;> rfl

theorem console_error_quiet (w : World) (e : Val) (h : w.consoleError e = none) :
    (console_error w e).1 = .ok .undefined := by
  simp [console_error, h]

theorem thenCallback_throw (w : World) (m : Module) (e : Val)
    (h : (get_pc_call m).1 = .error e) :
    thenCallback w m = (.error e, (get_pc_call m).2) := by
  unfold thenCallback
  rcases hc : get_pc_call m with ⟨c, t⟩
  rw [hc] at h
  simp only at h
  subst h
  rfl

theorem thenCallback_return_quiet (w : World) (m : Module) (v : Val)
    (h : (get_pc_call m).1 = .ok v) (hlog : w.consoleLog v = none) :
    thenCallback w m = (.ok .undefined, [.invoke "get_pc" literalArgs, .log v]) := by
  simp [thenCallback, get_pc_call_ok_events m v h, console_log, hlog]

theorem thenCallback_return_logThrows (w : World) (m : Module) (v e : Val)
    (h : (get_pc_call m).1 = .ok v) (hlog : w.consoleLog v = some e) :
    thenCallback w m = (.error e, [.invoke "get_pc" literalArgs, .log v]) := by
  simp [thenCallback, get_pc_call_ok_events m v h, console_log, hlog]

theorem index_pending (w : World) (h : w.importOutcome "./pkg" = .pending) :
    index w = (.pending, [.acquire "./pkg"]) := by
  simp [index, promiseThen, promiseCatch, h]

theorem index_rejected (w : World) (e : Val) (h : w.importOutcome "./pkg" = .rejected e) :
    index w = (settle (console_error w e).1, [.acquire "./pkg", .error e]) := by
  simp [index, promiseThen, promiseCatch, h, console_error_events]

theorem index_throw (w : World) (m : Module) (e : Val)
    (hacq : w.importOutcome "./pkg" = .fulfilled m) (h : (get_pc_call m).1 = .error e) :
    index w = (settle (console_error w e).1,
      .acquire "./pkg" :: ((get_pc_call m).2 ++ [.error e])) := by
  simp [index, promiseThen, promiseCatch, hacq, thenCallback_throw w m e h, settle,
    console_error_events]

theorem index_return_quiet (w : World) (m : Module) (v : Val)
    (hacq : w.importOutcome "./pkg" = .fulfilled m) (h : (get_pc_call m).1 = .ok v)
    (hlog : w.consoleLog v = none) :
    index w = (.fulfilled .undefined,
      [.acquire "./pkg", .invoke "get_pc" literalArgs, .log v]) := by
  simp [index, promiseThen, promiseCatch, hacq, thenCallback_return_quiet w m v h hlog, settle]

theorem index_return_logThrows (w : World) (m : Module) (v e : Val)
    (hacq : w.importOutcome "./pkg" = .fulfilled m) (h : (get_pc_call m).1 = .ok v)
    (hlog : w.consoleLog v = some e) :
    index w = (settle (console_error w e).1,
      [.acquire "./pkg", .invoke "get_pc" literalArgs, .log v, .error e]) := by
  simp [index, promiseThen, promiseCatch, hacq, thenCallback_return_logThrows w m v e h hlog,
    settle, console_error_events]

theorem shape (w : World) : Shape w := by
  cases hacq : w.importOutcome "./pkg" with
  | pending => exact .pending hacq (by simp [trace, index_pending w hacq])
  | rejected e => exact .loadFailed e hacq (by simp [trace, index_rejected w e hacq])
  | fulfilled m =>
    cases hm : m.member "get_pc" with
    | data d =>
      have hc := get_pc_call_data m d hm
      exact .notCallable m d hacq hm (by
        simp [trace, index_throw w m _ hacq (by rw [hc]), hc])
    | func f =>
      have hc := get_pc_call_func m f hm
      cases hf : f literalArgs with
      | error e =>
        exact .callThrew m f e hacq hm hf (by
          simp [trace, index_throw w m e hacq (by rw [hc, hf]), hc])
      | ok v =>
        have hv : (get_pc_call m).1 = .ok v := by rw [hc, hf]
        cases hlog : w.consoleLog v with
        | none =>
          exact .logged m f v hacq hm hf hlog (by
            simp [trace, index_return_quiet w m v hacq hv hlog])
        | some e =>
          exact .logThrew m f v e hacq hm hf hlog (by
            simp [trace, index_return_logThrows w m v e hacq hv hlog])

/-! ## The claims -/

/-- C1: when module acquisition yields `m` and the call `m.get_pc(...)` of line 7
returns a value, the trace holds exactly one invoke event, and it is `get_pc`
applied to the integer with binary digits
1100001111111000111111110011111110001111 and the string "JISZ", in that
order. -/
theorem C1_one_invocation_with_literal_arguments (w : World) (m : Module) (v : Val)
    (hacq : w.importOutcome "./pkg" = .fulfilled m)
    (hret : (get_pc_call m).1 = .ok v) :
    (trace w).filter Event.isInvoke =
      [.invoke "get_pc" [.bigint 0b1100001111111000111111110011111110001111, .str "JISZ"]] := by
  cases hlog : w.consoleLog v with
  | none => simp [trace, index_return_quiet w m v hacq hret hlog, Event.isInvoke, literalArgs]
  | some e =>
    simp [trace, index_return_logThrows w m v e hacq hret hlog, Event.isInvoke, literalArgs]

theorem C1_witness :
    (trace (quietWorld (.fulfilled returning7))).filter Event.isInvoke =
      [.invoke "get_pc" [.bigint 0b1100001111111000111111110011111110001111, .str "JISZ"]] :=
  C1_one_invocation_with_literal_arguments (quietWorld (.fulfilled returning7)) returning7
    (.host 7) rfl rfl

/-- C2: when the dynamic import fails with `e`, the trace holds exactly one
`console.error` event, no `console.log` event and no invocation of `get_pc`. -/
theorem C2_acquisition_failure (w : World) (e : Val)
    (hacq : w.importOutcome "./pkg" = .rejected e) :
    (trace w).countP Event.isError = 1 ∧ (trace w).countP Event.isLog = 0 ∧
      (trace w).countP Event.isInvoke = 0 := by
  simp [trace, index_rejected w e hacq, Event.isError, Event.isLog, Event.isInvoke]

theorem C2_witness :
    (trace (quietWorld (.rejected (.host 1)))).countP Event.isError = 1 ∧
      (trace (quietWorld (.rejected (.host 1)))).countP Event.isLog = 0 ∧
      (trace (quietWorld (.rejected (.host 1)))).countP Event.isInvoke = 0 :=
  C2_acquisition_failure (quietWorld (.rejected (.host 1))) (.host 1) rfl

/-- C3: when module acquisition yields `m` and the call `m.get_pc(...)` throws
`e`, the trace holds exactly one `console.error` event and no `console.log`
event: line 8 is not reached. -/
theorem C3_call_failure (w : World) (m : Module) (e : Val)
    (hacq : w.importOutcome "./pkg" = .fulfilled m)
    (hthrow : (get_pc_call m).1 = .error e) :
    (trace w).countP Event.isError = 1 ∧ (trace w).countP Event.isLog = 0 := by
  rcases get_pc_call_events m with ht | ⟨ht, _⟩ <;>
    simp [trace, index_throw w m e hacq hthrow, ht, Event.isError, Event.isLog]

theorem C3_witness :
    (trace (quietWorld (.fulfilled throwing9))).countP Event.isError = 1 ∧
      (trace (quietWorld (.fulfilled throwing9))).countP Event.isLog = 0 :=
  C3_call_failure (quietWorld (.fulfilled throwing9)) throwing9 (.host 9) rfl rfl

/-- C4, as amended: when module acquisition yields `m`, the call `m.get_pc(...)`
returns `v` and `console.log(v)` returns, the trace holds exactly one
`console.log` event and no `console.error` event. -/
theorem C4_success_when_log_returns (w : World) (m : Module) (v : Val)
    (hacq : w.importOutcome "./pkg" = .fulfilled m)
    (hret : (get_pc_call m).1 = .ok v)
    (hlog : w.consoleLog v = none) :
    (trace w).countP Event.isLog = 1 ∧ (trace w).countP Event.isError = 0 := by
  simp [trace, index_return_quiet w m v hacq hret hlog, Event.isError, Event.isLog]

theorem C4_witness :
    (trace (quietWorld (.fulfilled returning7))).countP Event.isLog = 1 ∧
      (trace (quietWorld (.fulfilled returning7))).countP Event.isError = 0 :=
  C4_success_when_log_returns (quietWorld (.fulfilled returning7)) returning7 (.host 7)
    rfl rfl rfl

/-- C4 as stated fails: acquisition yields a module whose `get_pc` returns the
host value 7, yet `console.log` throws on it and the trace holds one
`console.error` event. -/
theorem C4_counterexample :
    (logThrowsWorld (.fulfilled returning7)).importOutcome "./pkg" = .fulfilled returning7 ∧
      (get_pc_call returning7).1 = .ok (.host 7) ∧
      (trace (logThrowsWorld (.fulfilled returning7))).countP Event.isLog = 1 ∧
      (trace (logThrowsWorld (.fulfilled returning7))).countP Event.isError = 1 ∧
      ¬ ((trace (logThrowsWorld (.fulfilled returning7))).countP Event.isLog = 1 ∧
        (trace (logThrowsWorld (.fulfilled returning7))).countP Event.isError = 0) := by
  refine ⟨rfl, rfl, ?_, ?_, ?_⟩ <;> decide

/-- C5: every invocation in a trace is `get_pc` on two arguments, first the
exact integer that is the sum of `2^i` over the set bits of the digit string
1100001111111000111111110011111110001111 (the value `BigInt` gives the
literal), then the string "JISZ", which has length 4. -/
theorem C5_arguments_exact (w : World) (name : String) (args : List Val)
    (h : Event.invoke name args ∈ trace w) :
    name = "get_pc" ∧
      args = [.bigint (sumOfSetBits "1100001111111000111111110011111110001111"), .str "JISZ"] ∧
      BigInt bitPatternText =
        .ok (sumOfSetBits "1100001111111000111111110011111110001111" : Nat) ∧
      bitPatternText = "0b" ++ "1100001111111000111111110011111110001111" ∧
      "JISZ".length = 4 := by
  have hsum : sumOfSetBits "1100001111111000111111110011111110001111"
      = 0b1100001111111000111111110011111110001111 := by decide
  have htext : bitPatternText = "0b" ++ "1100001111111000111111110011111110001111" := by
    decide
  have hlen : "JISZ".length = 4 := by decide
  rw [hsum]
  refine ⟨?_, ?_, BigInt_bitPattern, htext, hlen⟩ <;>
    cases shape w with
    | pending _ ht => simp [ht] at h
    | loadFailed _ _ ht => simp [ht] at h
    | notCallable _ _ _ _ ht => simp [ht] at h
    | callThrew _ _ _ _ _ _ ht => simp [ht, literalArgs] at h; simp [h]
    | logged _ _ _ _ _ _ _ ht => simp [ht, literalArgs] at h; simp [h]
    | logThrew _ _ _ _ _ _ _ _ ht => simp [ht, literalArgs] at h; simp [h]

theorem C5_witness :
    "get_pc" = "get_pc" ∧
      [Val.bigint 0b1100001111111000111111110011111110001111, Val.str "JISZ"] =
        [.bigint (sumOfSetBits "1100001111111000111111110011111110001111"), .str "JISZ"] ∧
      BigInt bitPatternText =
        .ok (sumOfSetBits "1100001111111000111111110011111110001111" : Nat) ∧
      bitPatternText = "0b" ++ "1100001111111000111111110011111110001111" ∧
      "JISZ".length = 4 :=
  C5_arguments_exact (quietWorld (.fulfilled returning7)) "get_pc"
    [.bigint 0b1100001111111000111111110011111110001111, .str "JISZ"] (by decide)

/-- C6, as amended: the literal handed to `BigInt` has 40 binary digits after
its `0b` mark, and its value `n` satisfies `2^39 ≤ n < 2^40`. -/
theorem C6_literal_has_forty_bits :
    bitPatternDigits.length = 40 ∧
      ∃ n : Int, BigInt bitPatternText = .ok n ∧ 2 ^ 39 ≤ n ∧ n < 2 ^ 40 := by
  refine ⟨by decide, 0b1100001111111000111111110011111110001111, BigInt_bitPattern, ?_, ?_⟩ <;>
    norm_num

/-- C6 as stated fails: the digit string does not have 43 digits, and the value
of the literal is below `2^42`. -/
theorem C6_counterexample :
    bitPatternDigits.length ≠ 43 ∧
      ¬ ∃ n : Int, BigInt bitPatternText = .ok n ∧ 2 ^ 42 ≤ n ∧ n < 2 ^ 43 := by
  refine ⟨by decide, ?_⟩
  rintro ⟨n, hn, h42, _⟩
  rw [BigInt_bitPattern] at hn
  injection hn with hn
  subst hn
  norm_num at h42

/-- C7: in every run, however the import settles and whatever `get_pc` and the
console functions do, the trace holds at most one invocation of `get_pc`. -/
theorem C7_at_most_one_invocation (w : World) :
    (trace w).countP Event.isInvoke ≤ 1 := by
  cases shape w with
  | pending _ ht => simp [ht, Event.isInvoke]
  | loadFailed _ _ ht => simp [ht, Event.isInvoke]
  | notCallable _ _ _ _ ht => simp [ht, Event.isInvoke]
  | callThrew _ _ _ _ _ _ ht => simp [ht, Event.isInvoke]
  | logged _ _ _ _ _ _ _ ht => simp [ht, Event.isInvoke]
  | logThrew _ _ _ _ _ _ _ _ ht => simp [ht, Event.isInvoke]

/-- C8: when the call returns `v`, the only value handed to `console.log` is
`v`; when the import fails with `e`, or the call throws `e`, the only value
handed to `console.error` is `e`; and when neither console function throws, the
last promise of the chain is never rejected, and is fulfilled (with
`undefined`) as soon as the import settles. -/
theorem C8_raw_values_and_no_rethrow (w : World) :
    (∀ m v, w.importOutcome "./pkg" = .fulfilled m → (get_pc_call m).1 = .ok v →
        (trace w).filter Event.isLog = [.log v]) ∧
    (∀ e, w.importOutcome "./pkg" = .rejected e →
        (trace w).filter Event.isError = [.error e]) ∧
    (∀ m e, w.importOutcome "./pkg" = .fulfilled m → (get_pc_call m).1 = .error e →
        (trace w).filter Event.isError = [.error e]) ∧
    ((∀ x, w.consoleLog x = none) → (∀ x, w.consoleError x = none) →
        (∀ e, finalPromise w ≠ .rejected e) ∧
        (w.importOutcome "./pkg" ≠ .pending → finalPromise w = .fulfilled .undefined)) := by
  refine ⟨?_, ?_, ?_, ?_⟩
  · intro m v hacq hret
    cases hlog : w.consoleLog v with
    | none => simp [trace, index_return_quiet w m v hacq hret hlog, Event.isLog]
    | some e => simp [trace, index_return_logThrows w m v e hacq hret hlog, Event.isLog]
  · intro e hacq
    simp [trace, index_rejected w e hacq, Event.isError]
  · intro m e hacq hthrow
    rcases get_pc_call_events m with ht | ⟨ht, _⟩ <;>
      simp [trace, index_throw w m e hacq hthrow, ht, Event.isError]
  · intro hlog herr
    cases hacq : w.importOutcome "./pkg" with
    | pending => simp [finalPromise, index_pending w hacq]
    | rejected e =>
      simp [finalPromise, index_rejected w e hacq, console_error_quiet w e (herr e), settle]
    | fulfilled m =>
      cases hc : (get_pc_call m).1 with
      | error e =>
        simp [finalPromise, index_throw w m e hacq hc, console_error_quiet w e (herr e), settle]
      | ok v =>
        simp [finalPromise, index_return_quiet w m v hacq hc (hlog v)]

theorem C8_witness :
    (trace (quietWorld (.fulfilled returning7))).filter Event.isLog = [.log (.host 7)] ∧
      (trace (quietWorld (.rejected (.host 1)))).filter Event.isError = [.error (.host 1)] ∧
      (trace (quietWorld (.fulfilled throwing9))).filter Event.isError = [.error (.host 9)] ∧
      finalPromise (quietWorld (.fulfilled throwing9)) = .fulfilled .undefined :=
  ⟨(C8_raw_values_and_no_rethrow (quietWorld (.fulfilled returning7))).1 returning7 (.host 7)
      rfl rfl,
    (C8_raw_values_and_no_rethrow (quietWorld (.rejected (.host 1)))).2.1 (.host 1) rfl,
    (C8_raw_values_and_no_rethrow (quietWorld (.fulfilled throwing9))).2.2.1 throwing9 (.host 9)
      rfl rfl,
    ((C8_raw_values_and_no_rethrow (quietWorld (.fulfilled throwing9))).2.2.2
      (fun _ => rfl) (fun _ => rfl)).2 (by simp [quietWorld])⟩

/-- C9: split a trace at any event. An invoke event occurs only when the import
was fulfilled, and after the import was started. A log event carries the value
that an earlier invoke event of the same trace returned. An error event carries
the rejection of the import, or what the call of line 7 threw (after its invoke
event, when the member was callable), or what an earlier `console.log` threw.
No invoke event follows a log or an error event. -/
theorem C9_ordering (w : World) (pre post : List Event) (ev : Event)
    (h : trace w = pre ++ ev :: post) :
    (∀ name args, ev = .invoke name args →
        (∃ m, w.importOutcome "./pkg" = .fulfilled m) ∧ Event.acquire "./pkg" ∈ pre) ∧
    (∀ v, ev = .log v →
        ∃ m f args, w.importOutcome "./pkg" = .fulfilled m ∧ m.member "get_pc" = .func f ∧
          f args = .ok v ∧ Event.invoke "get_pc" args ∈ pre) ∧
    (∀ e, ev = .error e →
        (w.importOutcome "./pkg" = .rejected e ∧ Event.acquire "./pkg" ∈ pre) ∨
        (∃ m, w.importOutcome "./pkg" = .fulfilled m ∧ (get_pc_call m).1 = .error e ∧
          ∀ x ∈ (get_pc_call m).2, x ∈ pre) ∨
        (∃ v, Event.log v ∈ pre ∧ w.consoleLog v = some e)) ∧
    ((ev.isLog = true ∨ ev.isError = true) → ∀ x ∈ post, x.isInvoke = false) := by
  cases shape w with
  | pending hacq ht =>
    rw [ht] at h
    rcases pre with _ | ⟨a, _ | ⟨b, pre⟩⟩ <;> simp at h
    obtain ⟨rfl, rfl⟩ := h
    simp [Event.isLog, Event.isError]
  | loadFailed e hacq ht =>
    rw [ht] at h
    rcases pre with _ | ⟨a, _ | ⟨b, _ | ⟨c, pre⟩⟩⟩ <;> simp at h
    · obtain ⟨rfl, rfl⟩ := h
      simp [Event.isLog, Event.isError]
    · obtain ⟨rfl, rfl, rfl⟩ := h
      simp [Event.isLog, Event.isError, hacq]
  | notCallable m d hacq hm ht =>
    rw [ht] at h
    have hc := get_pc_call_data m d hm
    rcases pre with _ | ⟨a, _ | ⟨b, _ | ⟨c, pre⟩⟩⟩ <;> simp at h
    · obtain ⟨rfl, rfl⟩ := h
      simp [Event.isLog, Event.isError]
    · obtain ⟨rfl, rfl, rfl⟩ := h
      simp [Event.isLog, Event.isError, hacq, hc]
  | callThrew m f e hacq hm hf ht =>
    rw [ht] at h
    have hc := get_pc_call_func m f hm
    rcases pre with _ | ⟨a, _ | ⟨b, _ | ⟨c, _ | ⟨d, pre⟩⟩⟩⟩ <;> simp at h
    · obtain ⟨rfl, rfl⟩ := h
      simp [Event.isLog, Event.isError]
    · obtain ⟨rfl, rfl, rfl⟩ := h
      simp [Event.isLog, Event.isError, hacq]
    · obtain ⟨rfl, rfl, rfl, rfl⟩ := h
      simp [Event.isLog, Event.isError, hacq, hc, hf]
  | logged m f v hacq hm hf hlog ht =>
    rw [ht] at h
    rcases pre with _ | ⟨a, _ | ⟨b, _ | ⟨c, _ | ⟨d, pre⟩⟩⟩⟩ <;> simp at h
    · obtain ⟨rfl, rfl⟩ := h
      simp [Event.isLog, Event.isError]
    · obtain ⟨rfl, rfl, rfl⟩ := h
      simp [Event.isLog, Event.isError, hacq]
    · obtain ⟨rfl, rfl, rfl, rfl⟩ := h
      simp [Event.isLog, Event.isError, hacq]
      exact ⟨f, hm, hf⟩
  | logThrew m f v e hacq hm hf hlog ht =>
    rw [ht] at h
    rcases pre with _ | ⟨a, _ | ⟨b, _ | ⟨c, _ | ⟨d, _ | ⟨d', pre⟩⟩⟩⟩⟩ <;> simp at h
    · obtain ⟨rfl, rfl⟩ := h
      simp [Event.isLog, Event.isError]
    · obtain ⟨rfl, rfl, rfl⟩ := h
      simp [Event.isLog, Event.isError, hacq]
    · obtain ⟨rfl, rfl, rfl, rfl⟩ := h
      simp [Event.isLog, Event.isError, hacq, Event.isInvoke]
      exact ⟨f, hm, hf⟩
    · obtain ⟨rfl, rfl, rfl, rfl, rfl⟩ := h
      simp [Event.isLog, Event.isError, hacq, hlog]

theorem C9_witness :
    ∃ m f args, (logThrowsWorld (.fulfilled returning7)).importOutcome "./pkg" = .fulfilled m ∧
      m.member "get_pc" = .func f ∧ f args = .ok (.host 7) ∧
      Event.invoke "get_pc" args ∈ [Event.acquire "./pkg", Event.invoke "get_pc" literalArgs] :=
  (C9_ordering (logThrowsWorld (.fulfilled returning7))
    [.acquire "./pkg", .invoke "get_pc" literalArgs] [.error (.host 5)] (.log (.host 7))
    rfl).2.1 (.host 7) rfl

/-- C10: the one rejection handler covers the whole callback. When the import
yields `m`, the call returns `v` and `console.log(v)` throws `e`, the run
invokes `get_pc` once, logs `v`, and then hands `e` to `console.error`. When
the member `get_pc` of `m` is not callable, the `TypeError` of line 7 is handed
to `console.error`, and neither `get_pc` nor `console.log` is called. -/
theorem C10_catch_covers_whole_callback (w : World) (m : Module)
    (hacq : w.importOutcome "./pkg" = .fulfilled m) :
    (∀ v e, (get_pc_call m).1 = .ok v → w.consoleLog v = some e →
        trace w = [.acquire "./pkg", .invoke "get_pc" literalArgs, .log v, .error e] ∧
        (trace w).countP Event.isInvoke = 1 ∧ (trace w).countP Event.isError = 1) ∧
    (∀ d, m.member "get_pc" = .data d →
        trace w = [.acquire "./pkg",
          .error (.errorObject "TypeError" "m.get_pc is not a function")] ∧
        (trace w).countP Event.isLog = 0) := by
  constructor
  · intro v e hret hlog
    simp [trace, index_return_logThrows w m v e hacq hret hlog, Event.isInvoke, Event.isError]
  · intro d hm
    have hc := get_pc_call_data m d hm
    simp [trace, index_throw w m _ hacq (by rw [hc]), hc, Event.isLog]

theorem C10_witness :
    (trace (logThrowsWorld (.fulfilled returning7)) =
        [.acquire "./pkg", .invoke "get_pc" literalArgs, .log (.host 7), .error (.host 5)] ∧
      (trace (logThrowsWorld (.fulfilled returning7))).countP Event.isInvoke = 1 ∧
      (trace (logThrowsWorld (.fulfilled returning7))).countP Event.isError = 1) ∧
    (trace (quietWorld (.fulfilled emptyModule)) =
        [.acquire "./pkg", .error (.errorObject "TypeError" "m.get_pc is not a function")] ∧
      (trace (quietWorld (.fulfilled emptyModule))).countP Event.isLog = 0) :=
  ⟨(C10_catch_covers_whole_callback (logThrowsWorld (.fulfilled returning7)) returning7 rfl).1
      (.host 7) (.host 5) rfl rfl,
    (C10_catch_covers_whole_callback (quietWorld (.fulfilled emptyModule)) emptyModule rfl).2
      .undefined rfl⟩

end PcfWasm
